import Mathlib

/-!
# Verification of the igc-rs record decoders

Shallow embedding of the record-decoding core of the `igc-rs` crate:
the C-record decoders (`src/records/c_record.rs`), the record dispatcher
(`src/records/mod.rs`) and the I-record wrapper (`src/records/i_record.rs`),
together with the primitive parsers and the extension-definition
decoder/encoder that the crate uses but whose sources are outside the core
(those are modelled from the specification, as marked on each definition).

Lines are modelled as `List Char` (the format is ASCII, so Rust's byte
indexing and char indexing coincide).  A Rust function that can panic is
modelled with the three-way outcome type `POutcome`: `ok` for `Ok`,
`err` for `Err`, and `panicked` for an uncaught panic (a failed `assert!`
or an out-of-bounds index).
-/

/-- A text line, as a list of characters. -/
abbrev Str := List Char

/-- Failure taxonomy. Modelled from the spec: the crate's `ParseError` type
(`src/util/parse_error.rs`) is not part of the core sources; the spec's
§7 taxonomy is used instead. -/
inductive ParseError where
  | lineTooShort
  | malformedNumericField
  | malformedPrimitive
  | unexpectedLeadingTag
deriving DecidableEq, Repr

/-- Outcome of running a Rust function that returns `Result` and may panic:
`ok` models `Ok`, `err` models `Err` (propagated by the `?` operator), and
`panicked` models an uncaught panic such as a failed `assert!` or an
out-of-bounds index. -/
inductive POutcome (α : Type) where
  | ok : α → POutcome α
  | err : ParseError → POutcome α
  | panicked : POutcome α
deriving DecidableEq, Repr

/-- Sequencing in the presence of both errors and panics: models `let x = f(..)?;`. -/
def POutcome.bind {α β : Type} : POutcome α → (α → POutcome β) → POutcome β
  | .ok a, f => f a
  | .err e, _ => .err e
  | .panicked, _ => .panicked

/-- Mapping over a successful outcome: models wrapping an `Ok` value in a
constructor while `?` propagates errors and panics pass through. -/
def POutcome.map {α β : Type} (f : α → β) : POutcome α → POutcome β
  | .ok a => .ok (f a)
  | .err e => .err e
  | .panicked => .panicked

/-- `strSlice l a b` models the Rust subslice `&l[a..b]` (assuming `a ≤ b ≤ l.len()`,
which every call site below guarantees before slicing). -/
def strSlice (l : Str) (a b : Nat) : Str := (l.drop a).take (b - a)

/-- ASCII decimal digit test, by code point. -/
def isDigitC (c : Char) : Bool := 48 ≤ c.toNat && c.toNat ≤ 57

/-- Numeric value of an ASCII digit character. -/
def digitVal (c : Char) : Nat := c.toNat - 48

/-- Value of a two-digit decimal field. -/
def twoVal (a b : Char) : Nat := 10 * digitVal a + digitVal b

/-- Accumulating decimal evaluation of a digit string; `none` on a non-digit. -/
def parseDigitsAcc : Str → Nat → Option Nat
  | [], acc => some acc
  | c :: cs, acc =>
      if isDigitC c then parseDigitsAcc cs (acc * 10 + digitVal c) else none

/-- Strips one optional leading `+` sign, as Rust's unsigned `FromStr` does. -/
def stripPlus : Str → Str
  | '+' :: rest => rest
  | s => s

/-- Rust's `str::parse::<uN>()` (`FromStr` for an unsigned integer type with
maximum value `max`): an optional leading `+` sign, then one or more decimal
digits, failing on an empty digit sequence, any non-digit, or overflow. -/
def rustParseNat (s : Str) (max : Nat) : POutcome Nat :=
  if (stripPlus s).isEmpty then .err .malformedNumericField
  else
    match parseDigitsAcc (stripPlus s) 0 with
    | none => .err .malformedNumericField
    | some v => if v ≤ max then .ok v else .err .malformedNumericField

/-- Calendar date as carried by a C record. -/
structure Date where
  day : Nat
  month : Nat
  year : Nat
deriving DecidableEq, Repr

/-- Time of day as carried by a C record. -/
structure Time where
  hours : Nat
  minutes : Nat
  seconds : Nat
deriving DecidableEq, Repr

/-- Modelled from the spec: `Date::parse` (`src/util/datetime.rs`, outside the
core sources) reads an exact-width `DDMMYY` digit field, fails on any
non-conforming character, and passes the raw digits through without calendar
validation (day `23`, month `07`, year `2000 + YY`; `000000` is accepted). -/
def Date.parse (s : Str) : POutcome Date :=
  match s with
  | [d1, d2, m1, m2, y1, y2] =>
      if isDigitC d1 && isDigitC d2 && isDigitC m1 && isDigitC m2
          && isDigitC y1 && isDigitC y2 then
        .ok ⟨twoVal d1 d2, twoVal m1 m2, 2000 + twoVal y1 y2⟩
      else .err .malformedPrimitive
  | _ => .err .malformedPrimitive

/-- Modelled from the spec: `Time::parse` (`src/util/datetime.rs`, outside the
core sources) reads an exact-width `HHMMSS` digit field and fails on any
non-conforming character. -/
def Time.parse (s : Str) : POutcome Time :=
  match s with
  | [h1, h2, m1, m2, s1, s2] =>
      if isDigitC h1 && isDigitC h2 && isDigitC m1 && isDigitC m2
          && isDigitC s1 && isDigitC s2 then
        .ok ⟨twoVal h1 h2, twoVal m1 m2, twoVal s1 s2⟩
      else .err .malformedPrimitive
  | _ => .err .malformedPrimitive

/-- A hemisphere letter of a coordinate. -/
inductive Compass where
  | north
  | south
  | east
  | west
deriving DecidableEq, Repr

/-- One raw coordinate: degrees, thousandths of minutes, hemisphere. -/
structure RawCoord where
  degrees : Nat
  minute_thousandths : Nat
  sign : Compass
deriving DecidableEq, Repr

/-- A latitude/longitude pair. -/
structure RawPosition where
  lat : RawCoord
  lon : RawCoord
deriving DecidableEq, Repr

/-- Value of a five-digit decimal field. -/
def fiveVal (a b c d e : Char) : Nat :=
  10000 * digitVal a + 1000 * digitVal b + 100 * digitVal c
    + 10 * digitVal d + digitVal e

/-- Modelled from the spec: `RawPosition::parse_lat_lon`
(`src/util/coord.rs`, outside the core sources) reads a 17-character field
`DDMMMMMH DDDMMMMMH`: a latitude (2-digit degrees, 5-digit thousandths of
minutes, `N`/`S`) followed by a longitude (3-digit degrees, 5-digit
thousandths of minutes, `E`/`W`), failing on any non-conforming character. -/
def RawPosition.parse_lat_lon (s : Str) : POutcome RawPosition :=
  match s with
  | [a1, a2, m1, m2, m3, m4, m5, h1, b1, b2, b3, n1, n2, n3, n4, n5, h2] =>
      if isDigitC a1 && isDigitC a2 && isDigitC m1 && isDigitC m2 && isDigitC m3
          && isDigitC m4 && isDigitC m5 && isDigitC b1 && isDigitC b2
          && isDigitC b3 && isDigitC n1 && isDigitC n2 && isDigitC n3
          && isDigitC n4 && isDigitC n5 then
        match h1, h2 with
        | 'N', 'E' => .ok ⟨⟨twoVal a1 a2, fiveVal m1 m2 m3 m4 m5, .north⟩,
            ⟨100 * digitVal b1 + twoVal b2 b3, fiveVal n1 n2 n3 n4 n5, .east⟩⟩
        | 'N', 'W' => .ok ⟨⟨twoVal a1 a2, fiveVal m1 m2 m3 m4 m5, .north⟩,
            ⟨100 * digitVal b1 + twoVal b2 b3, fiveVal n1 n2 n3 n4 n5, .west⟩⟩
        | 'S', 'E' => .ok ⟨⟨twoVal a1 a2, fiveVal m1 m2 m3 m4 m5, .south⟩,
            ⟨100 * digitVal b1 + twoVal b2 b3, fiveVal n1 n2 n3 n4 n5, .east⟩⟩
        | 'S', 'W' => .ok ⟨⟨twoVal a1 a2, fiveVal m1 m2 m3 m4 m5, .south⟩,
            ⟨100 * digitVal b1 + twoVal b2 b3, fiveVal n1 n2 n3 n4 n5, .west⟩⟩
        | _, _ => .err .malformedPrimitive
      else .err .malformedPrimitive
  | _ => .err .malformedPrimitive

/-- The task-declaration flavor of a C record (`c_record.rs`). -/
structure CRecordDeclaration where
  date : Date
  time : Time
  flight_date : Date
  task_id : Nat
  turnpoint_count : Nat
  task_name : Option Str
deriving DecidableEq, Repr

/-- `CRecordDeclaration::parse` from `src/records/c_record.rs`:
two `assert!`s (length at least 25, leading byte `C`) modelled as panics,
then fixed-offset fields `[1,7)` date, `[7,13)` time, `[13,19)` flight date,
`[19,23)` task id via `parse::<u16>()`, `[23,25)` turnpoint count via
`parse::<u8>()`, and the optional trailing task name from offset 25. -/
def CRecordDeclaration.parse (line : Str) : POutcome CRecordDeclaration :=
  if line.length < 25 then .panicked
  else if line.get? 0 = some 'C' then
    (Date.parse (strSlice line 1 7)).bind fun date =>
    (Time.parse (strSlice line 7 13)).bind fun time =>
    (Date.parse (strSlice line 13 19)).bind fun flight_date =>
    (rustParseNat (strSlice line 19 23) 65535).bind fun task_id =>
    (rustParseNat (strSlice line 23 25) 255).bind fun turnpoint_count =>
    .ok { date := date, time := time, flight_date := flight_date,
          task_id := task_id, turnpoint_count := turnpoint_count,
          task_name := if 25 < line.length then some (line.drop 25) else none }
  else .panicked

/-- The turnpoint flavor of a C record (`c_record.rs`). -/
structure CRecordTurnpoint where
  position : RawPosition
  turnpoint_name : Option Str
deriving DecidableEq, Repr

/-- `CRecordTurnpoint::parse` from `src/records/c_record.rs`:
two `assert!`s (length at least 18, leading byte `C`) modelled as panics,
then the position from `[1,18)` and the optional trailing turnpoint name
from offset 18. -/
def CRecordTurnpoint.parse (line : Str) : POutcome CRecordTurnpoint :=
  if line.length < 18 then .panicked
  else if line.get? 0 = some 'C' then
    (RawPosition.parse_lat_lon (strSlice line 1 18)).bind fun position =>
    .ok { position := position,
          turnpoint_name := if 18 < line.length then some (line.drop 18) else none }
  else .panicked

/-- The tagged union of record kinds (`src/records/mod.rs`).  The A, B, D and
E payload types live outside the core sources, so the union is parameterized
by a payload type `ε` for those four variants; the dispatcher below is
likewise parameterized by their decoders. -/
inductive Record (ε : Type) where
  | A : ε → Record ε
  | B : ε → Record ε
  | CDeclaration : CRecordDeclaration → Record ε
  | CTurnpoint : CRecordTurnpoint → Record ε
  | D : ε → Record ε
  | E : ε → Record ε
  | Unrecognised : Record ε
deriving DecidableEq, Repr

/-- `Record::parse_line` from `src/records/mod.rs`: reads `line.as_bytes()[0]`
(a panic on the empty line), dispatches `A`/`B`/`D`/`E` to their decoders
(external collaborators, passed as parameters), disambiguates the two `C`
shapes by the byte at index 8 (`N` or `S` means turnpoint; reading it panics
on a line shorter than 9), and maps every other leading byte to
`Unrecognised` without failing. -/
def Record.parse_line {ε : Type}
    (aParse bParse dParse eParse : Str → POutcome ε) (line : Str) :
    POutcome (Record ε) :=
  match line.get? 0 with
  | none => .panicked
  | some c =>
      if c = 'A' then (aParse line).map Record.A
      else if c = 'B' then (bParse line).map Record.B
      else if c = 'C' then
        match line.get? 8 with
        | none => .panicked
        | some ninth =>
            if ninth = 'N' ∨ ninth = 'S' then
              (CRecordTurnpoint.parse line).map Record.CTurnpoint
            else
              (CRecordDeclaration.parse line).map Record.CDeclaration
      else if c = 'D' then (dParse line).map Record.D
      else if c = 'E' then (eParse line).map Record.E
      else .ok Record.Unrecognised

/-- One extension entry of an extension-definition record: a start column, an
end column and a 3-character mnemonic name. -/
structure Extension where
  start_byte : Nat
  end_byte : Nat
  name : Str
deriving DecidableEq, Repr

/-- Modelled from the spec: decoding of one 7-character sub-field of an
extension definition (`src/records/extension.rs`, outside the core sources):
a 2-digit start column, a 2-digit end column and a 3-character name, failing
if a column digit is non-decimal or the sub-field is too short. -/
def Extension.parse (chunk : Str) : POutcome Extension :=
  match chunk with
  | a :: b :: c :: d :: name =>
      if isDigitC a && isDigitC b && isDigitC c && isDigitC d then
        .ok ⟨twoVal a b, twoVal c d, name⟩
      else .err .malformedNumericField
  | _ => .err .lineTooShort

/-- A decimal number zero-padded to at least two digits: Rust's `{:02}`. -/
def pad2 (n : Nat) : Str := if n < 10 then '0' :: Nat.toDigits 10 n else Nat.toDigits 10 n

/-- Modelled from the spec: serialization of one extension entry, its start
and end columns as 2-digit zero-padded decimals followed by its name. -/
def Extension.fmt (e : Extension) : Str := pad2 e.start_byte ++ pad2 e.end_byte ++ e.name

/-- An extension-definition record: the declared count and the ordered
entries. -/
structure ExtensionDefRecord where
  num_extensions : Nat
  extensions : List Extension
deriving DecidableEq, Repr

/-- Reads `n` consecutive 7-character sub-fields from the front of `s`. -/
def parseChunks : Nat → Str → POutcome (List Extension)
  | 0, _ => .ok []
  | n + 1, s =>
      (Extension.parse (s.take 7)).bind fun e =>
      (parseChunks n (s.drop 7)).bind fun rest =>
      .ok (e :: rest)

/-- Modelled from the spec: `ExtensionDefRecord::parse`
(`src/records/extension.rs`, outside the core sources).  The leading tag byte
is skipped; the 2-digit count occupies bytes 1-2 (as in the I-record example
`I033638FXA3941ENL4246TAS`); then `count` 7-character sub-fields are read.
Fails if the count does not parse as a non-negative integer, if the line is
shorter than `3 + 7 * count`, or if a column sub-field is non-decimal. -/
def ExtensionDefRecord.parse (line : Str) : POutcome ExtensionDefRecord :=
  match line with
  | _tag :: c1 :: c2 :: rest =>
      (rustParseNat [c1, c2] 255).bind fun count =>
      if rest.length < 7 * count then .err .lineTooShort
      else
        (parseChunks count rest).bind fun exts =>
        .ok ⟨count, exts⟩
  | _ => .err .lineTooShort

/-- Modelled from the spec: `ExtensionDefRecord::fmt`
(`src/records/extension.rs`, outside the core sources): the requesting
record's tag character, the count as a 2-digit zero-padded decimal, then each
entry in order. -/
def ExtensionDefRecord.fmt (r : ExtensionDefRecord) (tag : Char) : Str :=
  tag :: pad2 r.num_extensions ++ (r.extensions.map Extension.fmt).flatten

/-- The I record: a wrapper around an extension-definition record
(`src/records/i_record.rs`). -/
structure IRecord where
  ext : ExtensionDefRecord
deriving DecidableEq, Repr

/-- `IRecord::parse` from `src/records/i_record.rs`: reads
`line.as_bytes()[0]` (a panic on the empty line), `assert!`s it is `I`
(modelled as a panic), and delegates to `ExtensionDefRecord::parse`. -/
def IRecord.parse (line : Str) : POutcome IRecord :=
  match line.get? 0 with
  | none => .panicked
  | some c => if c = 'I' then (ExtensionDefRecord.parse line).map IRecord.mk else .panicked

/-- The `Display` implementation of `IRecord` from `src/records/i_record.rs`:
delegates to `ExtensionDefRecord::fmt` with tag `I`. -/
def IRecord.fmt (r : IRecord) : Str := r.ext.fmt 'I'

/-- A 7-character extension sub-field whose two column fields are decimal
digits (the name may be any 3 characters). -/
def goodChunk (chunk : Str) : Prop :=
  chunk.length = 7 ∧ (chunk.take 4).all isDigitC

instance (chunk : Str) : Decidable (goodChunk chunk) := by
  unfold goodChunk; infer_instance

/-- A well-formed extension-definition line: the tag `I`, a 2-digit count,
then exactly `count` 7-character sub-fields each carrying a 2-digit start
column, a 2-digit end column and a 3-character name. -/
def wellFormedExtLine (line : Str) : Prop :=
  ∃ (c1 c2 : Char) (chunks : List Str),
    isDigitC c1 ∧ isDigitC c2 ∧ (∀ ch ∈ chunks, goodChunk ch) ∧
    chunks.length = twoVal c1 c2 ∧ line = 'I' :: c1 :: c2 :: chunks.flatten

/-- `o.isErr` holds when the outcome is a returned (non-panic) failure. -/
def POutcome.isErr {α : Type} (o : POutcome α) : Prop := ∃ e, o = .err e

/-- The shape accepted by Rust's unsigned `FromStr`: an optional leading `+`
then a nonempty run of decimal digits. -/
def rustNatShape (s : Str) : Bool := !(stripPlus s).isEmpty && (stripPlus s).all isDigitC

/-- A trivial stand-in for the A/B/D/E decoders, used to instantiate the
dispatcher at concrete inputs. -/
def unitDecoder : Str → POutcome Unit := fun _ => .ok ()

/-! ## Helper lemmas -/

theorem POutcome.bind_eq_ok {α β : Type} {o : POutcome α} {f : α → POutcome β} {b : β}
    (h : o.bind f = .ok b) : ∃ a, o = .ok a ∧ f a = .ok b := by
  cases o with
  | ok a => exact ⟨a, rfl, h⟩
  | err e => simp [POutcome.bind] at h
  | panicked => simp [POutcome.bind] at h

theorem POutcome.isErr_bind_left {α β : Type} {o : POutcome α} (f : α → POutcome β)
    (h : o.isErr) : (o.bind f).isErr := by
  obtain ⟨e, rfl⟩ := h
  exact ⟨e, rfl⟩

theorem POutcome.isErr_bind {α β : Type} {o : POutcome α} {f : α → POutcome β}
    (hnp : o ≠ .panicked) (h : ∀ a, o = .ok a → (f a).isErr) : (o.bind f).isErr := by
  cases o with
  | ok a => exact h a rfl
  | err e => exact ⟨e, rfl⟩
  | panicked => exact absurd rfl hnp

theorem digitVal_le_nine {c : Char} (h : isDigitC c = true) : digitVal c ≤ 9 := by
  simp only [isDigitC, Bool.and_eq_true, decide_eq_true_eq] at h
  simp only [digitVal]
  omega

theorem parseDigitsAcc_lt {ds : Str} {v : Nat} :
    ∀ {acc : Nat}, parseDigitsAcc ds acc = some v → v < (acc + 1) * 10 ^ ds.length := by
  induction ds with
  | nil =>
      intro acc h
      simp only [parseDigitsAcc, Option.some.injEq] at h
      subst h
      simp [Nat.lt_succ_self]
  | cons c cs ih =>
      intro acc h
      simp only [parseDigitsAcc] at h
      split at h
      case isTrue hdig =>
        have hd : digitVal c ≤ 9 := digitVal_le_nine hdig
        have h1 := ih h
        have h2 : (acc * 10 + digitVal c + 1) * 10 ^ cs.length
            ≤ ((acc + 1) * 10) * 10 ^ cs.length :=
          Nat.mul_le_mul_right _ (by omega)
        have h3 : (acc + 1) * 10 ^ (c :: cs).length = ((acc + 1) * 10) * 10 ^ cs.length := by
          simp only [List.length_cons, pow_succ]
          ring
        rw [h3]
        exact lt_of_lt_of_le h1 h2
      case isFalse => exact absurd h (by simp)

theorem parseDigitsAcc_none {ds : Str} (h : ¬ ds.all isDigitC = true) :
    ∀ acc, parseDigitsAcc ds acc = none := by
  induction ds with
  | nil => simp at h
  | cons c cs ih =>
      intro acc
      simp only [List.all_cons, Bool.and_eq_true] at h
      simp only [parseDigitsAcc]
      split
      case isTrue hdig => exact ih (fun hall => h ⟨hdig, hall⟩) _
      case isFalse => rfl

theorem stripPlus_cons_ne {c : Char} (s : Str) (h : c ≠ '+') : stripPlus (c :: s) = c :: s := by
  unfold stripPlus
  split
  · rename_i heq
    injection heq with h1 _
    exact absurd h1 h
  · rfl

theorem length_stripPlus (s : Str) : (stripPlus s).length ≤ s.length := by
  unfold stripPlus
  split
  · simp
  · exact Nat.le_refl _

theorem rustParseNat_lt {s : Str} {max v : Nat} (h : rustParseNat s max = .ok v) :
    v < 10 ^ s.length := by
  unfold rustParseNat at h
  split at h
  · exact absurd h (by simp)
  · split at h
    · exact absurd h (by simp)
    · rename_i v' hacc
      split at h
      · injection h with hv
        subst hv
        have h1 := parseDigitsAcc_lt hacc
        have h2 : (0 + 1) * (10 : Nat) ^ (stripPlus s).length ≤ 10 ^ s.length := by
          simpa using Nat.pow_le_pow_right (by omega) (length_stripPlus s)
        exact lt_of_lt_of_le h1 h2
      · exact absurd h (by simp)

theorem rustParseNat_isErr {s : Str} (max : Nat) (h : rustNatShape s = false) :
    (rustParseNat s max).isErr := by
  unfold rustParseNat
  simp only [rustNatShape, Bool.and_eq_false_iff, Bool.not_eq_false'] at h
  split
  · exact ⟨_, rfl⟩
  · rename_i hne
    rcases h with h | h
    · exact absurd h hne
    · rw [parseDigitsAcc_none (by simp [h]) 0]
      exact ⟨_, rfl⟩

theorem rustParseNat_ne_panicked {s : Str} {max : Nat} : rustParseNat s max ≠ .panicked := by
  unfold rustParseNat
  split
  · simp
  · split
    · simp
    · split <;> simp

theorem dateParse_ne_panicked {s : Str} : Date.parse s ≠ .panicked := by
  unfold Date.parse
  split
  · split <;> simp
  · simp

theorem timeParse_ne_panicked {s : Str} : Time.parse s ≠ .panicked := by
  unfold Time.parse
  split
  · split <;> simp
  · simp

theorem positionParse_ne_panicked {s : Str} :
    RawPosition.parse_lat_lon s ≠ .panicked := by
  unfold RawPosition.parse_lat_lon
  split
  · split
    · split <;> simp
    · simp
  · simp

theorem POutcome.map_eq_ok {α β : Type} {f : α → β} {o : POutcome α} {b : β}
    (h : o.map f = .ok b) : ∃ a, o = .ok a ∧ f a = b := by
  cases o with
  | ok a =>
      refine ⟨a, rfl, ?_⟩
      simpa [POutcome.map] using h
  | err e => simp [POutcome.map] at h
  | panicked => simp [POutcome.map] at h

theorem length_strSlice {l : Str} {a b : Nat} (hab : a ≤ b) (hb : b ≤ l.length) :
    (strSlice l a b).length = b - a := by
  simp only [strSlice, List.length_take, List.length_drop]
  omega

/-- Anatomy of a successful declaration parse: the line passed both asserts,
the two numeric fields parsed from their slices, and the task name is the
optional trailer from offset 25. -/
theorem declarationParse_ok {line : Str} {d : CRecordDeclaration}
    (h : CRecordDeclaration.parse line = .ok d) :
    25 ≤ line.length ∧
    rustParseNat (strSlice line 19 23) 65535 = .ok d.task_id ∧
    rustParseNat (strSlice line 23 25) 255 = .ok d.turnpoint_count ∧
    d.task_name = (if 25 < line.length then some (line.drop 25) else none) := by
  unfold CRecordDeclaration.parse at h
  split at h
  · exact absurd h (by simp)
  · rename_i h25
    split at h
    · obtain ⟨date, hdate, h⟩ := POutcome.bind_eq_ok h
      obtain ⟨time, htime, h⟩ := POutcome.bind_eq_ok h
      obtain ⟨fd, hfd, h⟩ := POutcome.bind_eq_ok h
      obtain ⟨tid, htid, h⟩ := POutcome.bind_eq_ok h
      obtain ⟨tc, htc, h⟩ := POutcome.bind_eq_ok h
      injection h with h
      subst h
      exact ⟨by omega, htid, htc, rfl⟩
    · exact absurd h (by simp)

/-- Anatomy of a successful turnpoint parse. -/
theorem turnpointParse_ok {line : Str} {t : CRecordTurnpoint}
    (h : CRecordTurnpoint.parse line = .ok t) :
    18 ≤ line.length ∧
    t.turnpoint_name = (if 18 < line.length then some (line.drop 18) else none) := by
  unfold CRecordTurnpoint.parse at h
  split at h
  · exact absurd h (by simp)
  · rename_i h18
    split at h
    · obtain ⟨pos, hpos, h⟩ := POutcome.bind_eq_ok h
      injection h with h
      subst h
      exact ⟨by omega, rfl⟩
    · exact absurd h (by simp)

/-- On a line whose first byte is `C`, the dispatcher reduces to the
hemisphere test on the byte at index 8. -/
theorem parse_line_c_match {ε : Type} (aP bP dP eP : Str → POutcome ε) (line : Str)
    (hC : line.get? 0 = some 'C') :
    Record.parse_line aP bP dP eP line =
      (match line.get? 8 with
       | none => .panicked
       | some ninth =>
           if ninth = 'N' ∨ ninth = 'S' then
             (CRecordTurnpoint.parse line).map Record.CTurnpoint
           else
             (CRecordDeclaration.parse line).map Record.CDeclaration) := by
  unfold Record.parse_line
  rw [hC]
  rfl

theorem isDigitC_toNat {c : Char} (h : isDigitC c = true) : 48 ≤ c.toNat ∧ c.toNat ≤ 57 := by
  simpa [isDigitC] using h

theorem digitChar_ofNat_digit : ∀ n < 58, 48 ≤ n → Nat.digitChar (n - 48) = Char.ofNat n := by
  decide

theorem digitChar_digitVal {c : Char} (h : isDigitC c = true) :
    Nat.digitChar (digitVal c) = c := by
  obtain ⟨h1, h2⟩ := isDigitC_toNat h
  have h3 := digitChar_ofNat_digit c.toNat (by omega) h1
  rw [digitVal, h3, Char.ofNat_toNat]

theorem pad2_two_digits :
    ∀ x < 10, ∀ y < 10, pad2 (10 * x + y) = [Nat.digitChar x, Nat.digitChar y] := by
  decide

theorem pad2_twoVal {a b : Char} (ha : isDigitC a = true) (hb : isDigitC b = true) :
    pad2 (twoVal a b) = [a, b] := by
  have hva : digitVal a ≤ 9 := digitVal_le_nine ha
  have hvb : digitVal b ≤ 9 := digitVal_le_nine hb
  rw [twoVal, pad2_two_digits (digitVal a) (by omega) (digitVal b) (by omega),
    digitChar_digitVal ha, digitChar_digitVal hb]

theorem extension_parse_fmt {ch : Str} (h : goodChunk ch) :
    ∃ e, Extension.parse ch = .ok e ∧ Extension.fmt e = ch := by
  obtain ⟨hlen, hdig⟩ := h
  rcases ch with _ | ⟨a, ch⟩
  · simp at hlen
  rcases ch with _ | ⟨b, ch⟩
  · simp at hlen
  rcases ch with _ | ⟨c, ch⟩
  · simp at hlen
  rcases ch with _ | ⟨d, ch⟩
  · simp at hlen
  simp only [List.take, List.all_cons, List.all_nil, Bool.and_eq_true, and_true] at hdig
  obtain ⟨ha, hb, hc, hd⟩ := hdig
  refine ⟨⟨twoVal a b, twoVal c d, ch⟩, ?_, ?_⟩
  · simp [Extension.parse, ha, hb, hc, hd]
  · simp [Extension.fmt, pad2_twoVal ha hb, pad2_twoVal hc hd]

theorem parseChunks_flatten {chunks : List Str} (h : ∀ ch ∈ chunks, goodChunk ch) :
    ∃ exts, parseChunks chunks.length chunks.flatten = .ok exts ∧
      exts.map Extension.fmt = chunks := by
  induction chunks with
  | nil => exact ⟨[], rfl, rfl⟩
  | cons ch rest ih =>
      have hch := h ch (List.mem_cons_self ch rest)
      obtain ⟨e, hpe, hfe⟩ := extension_parse_fmt hch
      obtain ⟨exts, hpc, hfc⟩ := ih (fun c hc => h c (List.mem_cons_of_mem _ hc))
      refine ⟨e :: exts, ?_, by simp [hfe, hfc]⟩
      have h7 : ch.length = 7 := hch.1
      have htake : (ch ++ rest.flatten).take 7 = ch := by
        rw [← h7]
        exact List.take_left ch rest.flatten
      have hdrop : (ch ++ rest.flatten).drop 7 = rest.flatten := by
        rw [← h7]
        exact List.drop_left ch rest.flatten
      simp only [List.length_cons, List.flatten_cons, parseChunks, htake, hdrop, hpe, hpc,
        POutcome.bind]

theorem flatten_length_chunks {chunks : List Str} (h : ∀ ch ∈ chunks, goodChunk ch) :
    chunks.flatten.length = 7 * chunks.length := by
  induction chunks with
  | nil => simp
  | cons ch rest ih =>
      have h7 : ch.length = 7 := (h ch (List.mem_cons_self ch rest)).1
      have hr := ih (fun c hc => h c (List.mem_cons_of_mem _ hc))
      simp only [List.flatten_cons, List.length_append, List.length_cons, h7, hr]
      ring

theorem rustParseNat_two_digits {c1 c2 : Char} (h1 : isDigitC c1 = true)
    (h2 : isDigitC c2 = true) : rustParseNat [c1, c2] 255 = .ok (twoVal c1 c2) := by
  have hne : c1 ≠ '+' := by
    intro he
    subst he
    simp [isDigitC] at h1
  have hsp : stripPlus [c1, c2] = [c1, c2] := stripPlus_cons_ne _ hne
  have hv1 : digitVal c1 ≤ 9 := digitVal_le_nine h1
  have hv2 : digitVal c2 ≤ 9 := digitVal_le_nine h2
  have hacc : parseDigitsAcc [c1, c2] 0 = some (twoVal c1 c2) := by
    simp only [parseDigitsAcc, h1, h2, if_true, twoVal]
    ring_nf
  have hle : twoVal c1 c2 ≤ 255 := by
    rw [twoVal]
    omega
  unfold rustParseNat
  rw [hsp, hacc]
  simp [hle]

/-! ## Claim theorems -/

/-- C3: for every well-formed extension-definition line (a count field
followed by that many 7-character sub-fields, each a 2-digit start column,
a 2-digit end column and a 3-character name), decoding the line with
`IRecord::parse` succeeds and re-encoding the decoded record with the
I-record `Display` implementation reproduces the original line
byte-for-byte, i.e. `encode (decode line) = line`. -/
theorem extension_line_roundtrip (line : Str) (h : wellFormedExtLine line) :
    ∃ r, IRecord.parse line = .ok r ∧ IRecord.fmt r = line := by
  obtain ⟨c1, c2, chunks, h1, h2, hich, hlen, rfl⟩ := h
  obtain ⟨exts, hpc, hfc⟩ := parseChunks_flatten hich
  refine ⟨⟨⟨twoVal c1 c2, exts⟩⟩, ?_, ?_⟩
  · unfold IRecord.parse
    simp only [List.get?, if_true]
    show POutcome.map IRecord.mk
        ((rustParseNat [c1, c2] 255).bind fun count =>
          if chunks.flatten.length < 7 * count then POutcome.err ParseError.lineTooShort
          else (parseChunks count chunks.flatten).bind fun exts =>
            POutcome.ok ⟨count, exts⟩) =
      POutcome.ok ⟨⟨twoVal c1 c2, exts⟩⟩
    rw [rustParseNat_two_digits h1 h2]
    simp only [POutcome.bind]
    rw [if_neg (by rw [flatten_length_chunks hich, hlen]; omega), ← hlen, hpc]
    simp [POutcome.bind, POutcome.map]
  · simp only [IRecord.fmt, ExtensionDefRecord.fmt, hfc, ← hlen]
    rw [hlen, pad2_twoVal h1 h2]
    rfl

/-- Witness for C3 at the concrete line `I033638FXA3941ENL4246TAS`. -/
theorem extension_line_roundtrip_witness :
    wellFormedExtLine ("I033638FXA3941ENL4246TAS".toList) ∧
    ∃ r, IRecord.parse ("I033638FXA3941ENL4246TAS".toList) = .ok r ∧
      IRecord.fmt r = "I033638FXA3941ENL4246TAS".toList := by
  have hwf : wellFormedExtLine ("I033638FXA3941ENL4246TAS".toList) :=
    ⟨'0', '3', ["3638FXA".toList, "3941ENL".toList, "4246TAS".toList],
      by decide, by decide, by decide, by decide, by decide⟩
  exact ⟨hwf, extension_line_roundtrip _ hwf⟩

/-- C7: parsing `C230718092044000000000204Foo task` yields the declaration
record with date 23-07-2018, time 09:20:44, flight date 00-00-2000 (raw
digits passed through), task id 2, turnpoint count 4 and task name
`Some("Foo task")`; parsing `C230718092044000000000204` yields the same
record with task name `None`. -/
theorem declaration_concrete_samples :
    CRecordDeclaration.parse ("C230718092044000000000204Foo task".toList) =
      .ok ⟨⟨23, 7, 2018⟩, ⟨9, 20, 44⟩, ⟨0, 0, 2000⟩, 2, 4, some ("Foo task".toList)⟩ ∧
    CRecordDeclaration.parse ("C230718092044000000000204".toList) =
      .ok ⟨⟨23, 7, 2018⟩, ⟨9, 20, 44⟩, ⟨0, 0, 2000⟩, 2, 4, none⟩ := by
  constructor
  · rfl
  · rfl

/-- C9: every successfully parsed declaration record has a task identifier
representable in 4 decimal digits and a turnpoint count representable in 2:
the fields are read from fixed slices of width 4 and 2. -/
theorem declaration_width_invariant (line : Str) (d : CRecordDeclaration)
    (h : CRecordDeclaration.parse line = .ok d) :
    d.task_id ≤ 9999 ∧ d.turnpoint_count ≤ 99 := by
  obtain ⟨h25, htid, htc, -⟩ := declarationParse_ok h
  have l1 : (strSlice line 19 23).length = 4 := length_strSlice (by omega) (by omega)
  have l2 : (strSlice line 23 25).length = 2 := length_strSlice (by omega) (by omega)
  have b1 := rustParseNat_lt htid
  have b2 := rustParseNat_lt htc
  rw [l1] at b1
  rw [l2] at b2
  norm_num at b1 b2
  omega

/-- Witness for C9 at the concrete declaration sample line. -/
theorem declaration_width_invariant_witness :
    CRecordDeclaration.parse ("C230718092044000000000204Foo task".toList) =
      .ok ⟨⟨23, 7, 2018⟩, ⟨9, 20, 44⟩, ⟨0, 0, 2000⟩, 2, 4, some ("Foo task".toList)⟩ ∧
    (⟨⟨23, 7, 2018⟩, ⟨9, 20, 44⟩, ⟨0, 0, 2000⟩, 2, 4, some ("Foo task".toList)⟩ :
        CRecordDeclaration).task_id ≤ 9999 ∧
    (⟨⟨23, 7, 2018⟩, ⟨9, 20, 44⟩, ⟨0, 0, 2000⟩, 2, 4, some ("Foo task".toList)⟩ :
        CRecordDeclaration).turnpoint_count ≤ 99 := by
  have h : CRecordDeclaration.parse ("C230718092044000000000204Foo task".toList) =
      .ok ⟨⟨23, 7, 2018⟩, ⟨9, 20, 44⟩, ⟨0, 0, 2000⟩, 2, 4, some ("Foo task".toList)⟩ := by
    rfl
  exact ⟨h, (declaration_width_invariant _ _ h).1, (declaration_width_invariant _ _ h).2⟩

/-- C2 counterexample: on a declaration line of length exactly 26 the task
name is the one-character trailer `Some("X")`, not the empty string
`Some("")` that the claim (repeating the spec's wording) predicts for that
length. -/
theorem declaration_name_length26_not_empty :
    ("C230718092044000000000204X".toList).length = 26 ∧
    CRecordDeclaration.parse ("C230718092044000000000204X".toList) =
      .ok ⟨⟨23, 7, 2018⟩, ⟨9, 20, 44⟩, ⟨0, 0, 2000⟩, 2, 4, some ['X']⟩ ∧
    (some ['X'] : Option Str) ≠ some [] :=
  ⟨by decide, by rfl, by decide⟩

/-- C2 (amended): whenever the declaration decoder succeeds, the task name
is `None` iff the line length is exactly 25 and is `Some` of the exact byte
suffix from index 25 otherwise; likewise for the turnpoint decoder at
offset 18.  `Some("")` never arises: a present name is a nonempty suffix
(in particular a line of length exactly 26 carries a one-character name). -/
theorem c_record_trailing_name (line : Str) :
    (∀ d, CRecordDeclaration.parse line = .ok d →
      (d.task_name = none ↔ line.length = 25) ∧
      (25 < line.length → d.task_name = some (line.drop 25)) ∧
      (∀ s, d.task_name = some s → s ≠ [])) ∧
    (∀ t, CRecordTurnpoint.parse line = .ok t →
      (t.turnpoint_name = none ↔ line.length = 18) ∧
      (18 < line.length → t.turnpoint_name = some (line.drop 18)) ∧
      (∀ s, t.turnpoint_name = some s → s ≠ [])) := by
  constructor
  · intro d h
    obtain ⟨h25, -, -, hname⟩ := declarationParse_ok h
    rw [hname]
    by_cases hlt : 25 < line.length
    · rw [if_pos hlt]
      refine ⟨by simp [show line.length ≠ 25 by omega], fun _ => rfl, ?_⟩
      intro s hs hnil
      injection hs with hs
      subst hs
      have hd : (line.drop 25).length = line.length - 25 := List.length_drop _ _
      rw [hnil] at hd
      simp at hd
      omega
    · rw [if_neg hlt]
      refine ⟨by simp [show line.length = 25 by omega], fun hc => absurd hc hlt, ?_⟩
      intro s hs
      exact absurd hs (by simp)
  · intro t h
    obtain ⟨h18, hname⟩ := turnpointParse_ok h
    rw [hname]
    by_cases hlt : 18 < line.length
    · rw [if_pos hlt]
      refine ⟨by simp [show line.length ≠ 18 by omega], fun _ => rfl, ?_⟩
      intro s hs hnil
      injection hs with hs
      subst hs
      have hd : (line.drop 18).length = line.length - 18 := List.length_drop _ _
      rw [hnil] at hd
      simp at hd
      omega
    · rw [if_neg hlt]
      refine ⟨by simp [show line.length = 18 by omega], fun hc => absurd hc hlt, ?_⟩
      intro s hs
      exact absurd hs (by simp)

/-- Witness for the amended C2 at the concrete turnpoint sample line. -/
theorem c_record_trailing_name_witness :
    CRecordTurnpoint.parse ("C5156040N00038120WLBZ-Leighton Buzzard NE".toList) =
      .ok ⟨⟨⟨51, 56040, .north⟩, ⟨0, 38120, .west⟩⟩,
        some ("LBZ-Leighton Buzzard NE".toList)⟩ ∧
    (⟨⟨⟨51, 56040, .north⟩, ⟨0, 38120, .west⟩⟩,
        some ("LBZ-Leighton Buzzard NE".toList)⟩ : CRecordTurnpoint).turnpoint_name =
      some (("C5156040N00038120WLBZ-Leighton Buzzard NE".toList).drop 18) := by
  have h : CRecordTurnpoint.parse ("C5156040N00038120WLBZ-Leighton Buzzard NE".toList) =
      .ok ⟨⟨⟨51, 56040, .north⟩, ⟨0, 38120, .west⟩⟩,
        some ("LBZ-Leighton Buzzard NE".toList)⟩ := by
    rfl
  exact ⟨h, ((c_record_trailing_name _).2 _ h).2.1 (by decide)⟩

/-- C5 counterexample: a 24-character declaration line (one byte short of
the minimum) makes the decoder panic on its length `assert!`; no
`LineTooShort` failure value is returned. -/
theorem short_declaration_line_panics :
    CRecordDeclaration.parse ("C23071809204400000000020".toList) = .panicked ∧
    ¬ (CRecordDeclaration.parse ("C23071809204400000000020".toList)).isErr := by
  refine ⟨by rfl, ?_⟩
  rintro ⟨e, he⟩
  have hpe : (POutcome.panicked : POutcome CRecordDeclaration) = .err e := he
  exact POutcome.noConfusion hpe

/-- C5 (amended): a line of exactly the minimum length for its kind (25 for
a declaration, 18 for a turnpoint) decodes, when decoding succeeds, with no
optional trailing field; a line one byte shorter than the minimum makes the
decoder panic on its length `assert!` rather than returning a `LineTooShort`
failure value. -/
theorem min_length_boundary (line : Str) :
    (∀ d, line.length = 25 → CRecordDeclaration.parse line = .ok d → d.task_name = none) ∧
    (∀ t, line.length = 18 → CRecordTurnpoint.parse line = .ok t → t.turnpoint_name = none) ∧
    (line.length = 24 → CRecordDeclaration.parse line = .panicked) ∧
    (line.length = 17 → CRecordTurnpoint.parse line = .panicked) := by
  refine ⟨?_, ?_, ?_, ?_⟩
  · intro d hl h
    obtain ⟨-, -, -, hname⟩ := declarationParse_ok h
    rw [hname, if_neg (by omega)]
  · intro t hl h
    obtain ⟨-, hname⟩ := turnpointParse_ok h
    rw [hname, if_neg (by omega)]
  · intro hl
    unfold CRecordDeclaration.parse
    rw [if_pos (by omega)]
  · intro hl
    unfold CRecordTurnpoint.parse
    rw [if_pos (by omega)]

/-- Witness for the amended C5 at the four boundary sample lines. -/
theorem min_length_boundary_witness :
    CRecordDeclaration.parse ("C230718092044000000000204".toList) =
      .ok ⟨⟨23, 7, 2018⟩, ⟨9, 20, 44⟩, ⟨0, 0, 2000⟩, 2, 4, none⟩ ∧
    (⟨⟨23, 7, 2018⟩, ⟨9, 20, 44⟩, ⟨0, 0, 2000⟩, 2, 4, none⟩ :
        CRecordDeclaration).task_name = none ∧
    CRecordDeclaration.parse ("C23071809204400000000020".toList) = .panicked ∧
    CRecordTurnpoint.parse ("C5156040N00038120".toList) = .panicked := by
  have h : CRecordDeclaration.parse ("C230718092044000000000204".toList) =
      .ok ⟨⟨23, 7, 2018⟩, ⟨9, 20, 44⟩, ⟨0, 0, 2000⟩, 2, 4, none⟩ := by
    rfl
  refine ⟨h, (min_length_boundary ("C230718092044000000000204".toList)).1 _ (by decide) h,
    (min_length_boundary ("C23071809204400000000020".toList)).2.2.1 (by decide),
    (min_length_boundary ("C5156040N00038120".toList)).2.2.2 (by decide)⟩

/-- C6 counterexample: the task-identifier slice `[19,23)` of this line is
`+123`, which contains the non-digit `+`, yet the declaration decoder
succeeds: Rust's unsigned integer parsing accepts an optional leading `+`. -/
theorem plus_sign_field_parses :
    CRecordDeclaration.parse ("C230718092044000000+12304".toList) =
      .ok ⟨⟨23, 7, 2018⟩, ⟨9, 20, 44⟩, ⟨0, 0, 2000⟩, 123, 4, none⟩ ∧
    '+' ∈ strSlice ("C230718092044000000+12304".toList) 19 23 ∧
    isDigitC '+' = false :=
  ⟨by rfl, by decide, by decide⟩

/-- C6 (amended): for a line of length at least 25 starting with `C`, the
declaration decoder returns a failure whenever the task-identifier slice
`[19,23)` or the turnpoint-count slice `[23,25)` is not of the shape
accepted by Rust's unsigned integer parsing — an optional leading `+`
followed by a nonempty run of decimal digits.  (A leading `+` by itself
therefore does not make the parse fail.) -/
theorem declaration_numeric_field_shape (line : Str)
    (h25 : 25 ≤ line.length) (hC : line.get? 0 = some 'C')
    (hbad : rustNatShape (strSlice line 19 23) = false ∨
      rustNatShape (strSlice line 23 25) = false) :
    (CRecordDeclaration.parse line).isErr := by
  unfold CRecordDeclaration.parse
  rw [if_neg (by omega), if_pos hC]
  apply POutcome.isErr_bind dateParse_ne_panicked
  intro date hdate
  apply POutcome.isErr_bind timeParse_ne_panicked
  intro time htime
  apply POutcome.isErr_bind dateParse_ne_panicked
  intro fd hfd
  rcases hbad with hbad | hbad
  · exact POutcome.isErr_bind_left _ (rustParseNat_isErr _ hbad)
  · apply POutcome.isErr_bind rustParseNat_ne_panicked
    intro tid htid
    exact POutcome.isErr_bind_left _ (rustParseNat_isErr _ hbad)

/-- Witness for the amended C6 at a line with letters in the task-id field. -/
theorem declaration_numeric_field_shape_witness :
    25 ≤ ("C230718092044000000XX2304".toList).length ∧
    ("C230718092044000000XX2304".toList).get? 0 = some 'C' ∧
    rustNatShape (strSlice ("C230718092044000000XX2304".toList) 19 23) = false ∧
    (CRecordDeclaration.parse ("C230718092044000000XX2304".toList)).isErr := by
  refine ⟨by decide, by decide, by decide, ?_⟩
  exact declaration_numeric_field_shape _ (by decide) (by decide) (Or.inl (by decide))

/-- C1: for every line whose first byte is the declaration tag `C`, a
successful `Record::parse_line` yields a `CTurnpoint` record iff the byte at
index 8 is `N` or `S`, and a `CDeclaration` record otherwise — for any
external A/B/D/E decoders. -/
theorem parse_line_hemisphere_disambiguation {ε : Type}
    (aP bP dP eP : Str → POutcome ε) (line : Str) (r : Record ε)
    (hC : line.get? 0 = some 'C')
    (hok : Record.parse_line aP bP dP eP line = .ok r) :
    ((∃ t, r = Record.CTurnpoint t) ↔
      (line.get? 8 = some 'N' ∨ line.get? 8 = some 'S')) ∧
    ((∃ d, r = Record.CDeclaration d) ↔
      ¬ (line.get? 8 = some 'N' ∨ line.get? 8 = some 'S')) := by
  rw [parse_line_c_match aP bP dP eP line hC] at hok
  split at hok
  · exact absurd hok (by simp)
  · rename_i ninth hn
    by_cases hNS : ninth = 'N' ∨ ninth = 'S'
    · rw [if_pos hNS] at hok
      obtain ⟨t, -, rfl⟩ := POutcome.map_eq_ok hok
      have hr : line.get? 8 = some 'N' ∨ line.get? 8 = some 'S' := by
        rcases hNS with h | h
        · exact Or.inl (by rw [hn, h])
        · exact Or.inr (by rw [hn, h])
      constructor
      · exact ⟨fun _ => hr, fun _ => ⟨t, rfl⟩⟩
      · constructor
        · rintro ⟨d, hd⟩
          exact Record.noConfusion hd
        · intro hcon
          exact absurd hr hcon
    · rw [if_neg hNS] at hok
      obtain ⟨d, -, rfl⟩ := POutcome.map_eq_ok hok
      have hr : ¬ (line.get? 8 = some 'N' ∨ line.get? 8 = some 'S') := by
        rintro (h | h) <;> rw [hn] at h
        · injection h with h
          exact hNS (Or.inl h)
        · injection h with h
          exact hNS (Or.inr h)
      constructor
      · constructor
        · rintro ⟨t, ht⟩
          exact Record.noConfusion ht
        · intro h
          exact absurd h hr
      · exact ⟨fun _ => hr, fun _ => ⟨d, rfl⟩⟩

/-- Witness for C1 at the bare turnpoint sample line with trivial external
decoders. -/
theorem parse_line_hemisphere_disambiguation_witness :
    ("C5156040N00038120W".toList).get? 0 = some 'C' ∧
    Record.parse_line unitDecoder unitDecoder unitDecoder unitDecoder
        ("C5156040N00038120W".toList) =
      .ok (Record.CTurnpoint ⟨⟨⟨51, 56040, .north⟩, ⟨0, 38120, .west⟩⟩, none⟩) ∧
    ((∃ t, (Record.CTurnpoint ⟨⟨⟨51, 56040, .north⟩, ⟨0, 38120, .west⟩⟩, none⟩ :
        Record Unit) = Record.CTurnpoint t) ↔
      (("C5156040N00038120W".toList).get? 8 = some 'N' ∨
        ("C5156040N00038120W".toList).get? 8 = some 'S')) := by
  have hC : ("C5156040N00038120W".toList).get? 0 = some 'C' := by rfl
  have hok : Record.parse_line unitDecoder unitDecoder unitDecoder unitDecoder
      ("C5156040N00038120W".toList) =
      .ok (Record.CTurnpoint ⟨⟨⟨51, 56040, .north⟩, ⟨0, 38120, .west⟩⟩, none⟩) := by
    rfl
  exact ⟨hC, hok, (parse_line_hemisphere_disambiguation _ _ _ _ _ _ hC hok).1⟩

/-- C4 counterexample: on the empty input line `Record::parse_line` panics
(out-of-bounds read of byte 0); it does not return a failure value. -/
theorem parse_line_empty_line_not_failure :
    Record.parse_line unitDecoder unitDecoder unitDecoder unitDecoder ([] : Str) = .panicked ∧
    ¬ (Record.parse_line unitDecoder unitDecoder unitDecoder unitDecoder ([] : Str)).isErr := by
  refine ⟨rfl, ?_⟩
  rintro ⟨e, he⟩
  have hpe : (POutcome.panicked : POutcome (Record Unit)) = .err e := he
  exact POutcome.noConfusion hpe

/-- C4 (amended): on the empty input line the dispatcher panics — there is
no leading byte to inspect and `line.as_bytes()[0]` is out of bounds — so no
failure value is returned, whatever the external decoders are. -/
theorem parse_line_empty_line_panicked {ε : Type}
    (aP bP dP eP : Str → POutcome ε) :
    Record.parse_line aP bP dP eP ([] : Str) = .panicked := rfl

/-- Witness for the amended C4 with trivial external decoders. -/
theorem parse_line_empty_line_panicked_witness :
    Record.parse_line unitDecoder unitDecoder unitDecoder unitDecoder ([] : Str) =
      .panicked :=
  parse_line_empty_line_panicked unitDecoder unitDecoder unitDecoder unitDecoder

/-- C8: a non-empty line whose leading byte is none of `A`, `B`, `C`, `D`,
`E` is never a failure: the dispatcher returns the `Unrecognised` variant,
for any external decoders. -/
theorem parse_line_unknown_tag_unrecognised {ε : Type}
    (aP bP dP eP : Str → POutcome ε) (c : Char) (rest : Str)
    (h : c ≠ 'A' ∧ c ≠ 'B' ∧ c ≠ 'C' ∧ c ≠ 'D' ∧ c ≠ 'E') :
    Record.parse_line aP bP dP eP (c :: rest) = .ok Record.Unrecognised := by
  obtain ⟨hA, hB, hC, hD, hE⟩ := h
  unfold Record.parse_line
  simp only [List.get?]
  simp [hA, hB, hC, hD, hE]

/-- Witness for C8 at the concrete line `ZUNKNOWN`. -/
theorem parse_line_unknown_tag_unrecognised_witness :
    (('Z' ≠ 'A') ∧ ('Z' ≠ 'B') ∧ ('Z' ≠ 'C') ∧ ('Z' ≠ 'D') ∧ ('Z' ≠ 'E')) ∧
    Record.parse_line unitDecoder unitDecoder unitDecoder unitDecoder
      ('Z' :: "UNKNOWN".toList) = .ok Record.Unrecognised :=
  ⟨by decide, parse_line_unknown_tag_unrecognised unitDecoder unitDecoder unitDecoder
    unitDecoder 'Z' ("UNKNOWN".toList) (by decide)⟩

/-- C10: dispatcher routing of `C`-tagged lines is a function of bytes 0 and
8 only: two lines that both start with `C`, have length at least 9 and agree
on the byte at index 8 are routed to the same C-record decoder — both to the
turnpoint decoder or both to the declaration decoder — regardless of every
other byte in either line. -/
theorem parse_line_routing_byte8_only {ε : Type}
    (aP bP dP eP : Str → POutcome ε) (l1 l2 : Str)
    (h1C : l1.get? 0 = some 'C') (h2C : l2.get? 0 = some 'C')
    (h1 : 9 ≤ l1.length) (h2 : 9 ≤ l2.length)
    (h8 : l1.get? 8 = l2.get? 8) :
    (Record.parse_line aP bP dP eP l1 = (CRecordTurnpoint.parse l1).map Record.CTurnpoint ∧
     Record.parse_line aP bP dP eP l2 = (CRecordTurnpoint.parse l2).map Record.CTurnpoint) ∨
    (Record.parse_line aP bP dP eP l1 =
       (CRecordDeclaration.parse l1).map Record.CDeclaration ∧
     Record.parse_line aP bP dP eP l2 =
       (CRecordDeclaration.parse l2).map Record.CDeclaration) := by
  obtain ⟨n1, hn1⟩ : ∃ x, l1.get? 8 = some x := by
    cases hx : l1.get? 8 with
    | none => exact absurd (List.get?_eq_none.mp hx) (by omega)
    | some x => exact ⟨x, rfl⟩
  have hn2 : l2.get? 8 = some n1 := by
    rw [← h8, hn1]
  rw [parse_line_c_match aP bP dP eP l1 h1C, parse_line_c_match aP bP dP eP l2 h2C,
    hn1, hn2]
  by_cases hNS : n1 = 'N' ∨ n1 = 'S'
  · left
    constructor
    · show (if n1 = 'N' ∨ n1 = 'S' then (CRecordTurnpoint.parse l1).map Record.CTurnpoint
          else (CRecordDeclaration.parse l1).map Record.CDeclaration) =
        (CRecordTurnpoint.parse l1).map Record.CTurnpoint
      rw [if_pos hNS]
    · show (if n1 = 'N' ∨ n1 = 'S' then (CRecordTurnpoint.parse l2).map Record.CTurnpoint
          else (CRecordDeclaration.parse l2).map Record.CDeclaration) =
        (CRecordTurnpoint.parse l2).map Record.CTurnpoint
      rw [if_pos hNS]
  · right
    constructor
    · show (if n1 = 'N' ∨ n1 = 'S' then (CRecordTurnpoint.parse l1).map Record.CTurnpoint
          else (CRecordDeclaration.parse l1).map Record.CDeclaration) =
        (CRecordDeclaration.parse l1).map Record.CDeclaration
      rw [if_neg hNS]
    · show (if n1 = 'N' ∨ n1 = 'S' then (CRecordTurnpoint.parse l2).map Record.CTurnpoint
          else (CRecordDeclaration.parse l2).map Record.CDeclaration) =
        (CRecordDeclaration.parse l2).map Record.CDeclaration
      rw [if_neg hNS]

/-- Witness for C10 at two `C` lines agreeing only on the byte at index 8. -/
theorem parse_line_routing_byte8_only_witness :
    ("C5156040N00038120W".toList).get? 0 = some 'C' ∧
    ("C0000000N".toList).get? 0 = some 'C' ∧
    9 ≤ ("C5156040N00038120W".toList).length ∧ 9 ≤ ("C0000000N".toList).length ∧
    ("C5156040N00038120W".toList).get? 8 = ("C0000000N".toList).get? 8 ∧
    ((Record.parse_line unitDecoder unitDecoder unitDecoder unitDecoder
        ("C5156040N00038120W".toList) =
          (CRecordTurnpoint.parse ("C5156040N00038120W".toList)).map Record.CTurnpoint ∧
      Record.parse_line unitDecoder unitDecoder unitDecoder unitDecoder
        ("C0000000N".toList) =
          (CRecordTurnpoint.parse ("C0000000N".toList)).map Record.CTurnpoint) ∨
     (Record.parse_line unitDecoder unitDecoder unitDecoder unitDecoder
        ("C5156040N00038120W".toList) =
          (CRecordDeclaration.parse ("C5156040N00038120W".toList)).map Record.CDeclaration ∧
      Record.parse_line unitDecoder unitDecoder unitDecoder unitDecoder
        ("C0000000N".toList) =
          (CRecordDeclaration.parse ("C0000000N".toList)).map Record.CDeclaration)) := by
  refine ⟨by decide, by decide, by decide, by decide, by decide, ?_⟩
  exact parse_line_routing_byte8_only unitDecoder unitDecoder unitDecoder unitDecoder
    _ _ (by decide) (by decide) (by decide) (by decide) (by decide)
